import Mathlib

/-!
Verification development for the mmorts session runtime.

This file shallowly embeds the Go source of the repository:
the hex coordinate kernel (external/hexcore/hex/grid.go), the chunked
game map (internal/gamemap), the JWT credential validator
(internal/server/auth.go), the connection layer
(internal/server/connection.go, server.go) and the session roster
(internal/server/session code).  Pure functions become Lean functions;
the stateful handlers become explicit state-passing functions whose
outbound sends are modelled as effect lists.
-/

namespace Mmorts

/-! ## Hex coordinate kernel (external/hexcore/hex) -/

/-- Axial hex coordinate (q, r), mirroring hex.Axial. -/
structure Axial where
  q : Int
  r : Int
deriving DecidableEq, Repr

/-- Cube hex coordinate, mirroring hex.Cube. -/
structure Cube where
  x : Int
  y : Int
  z : Int
deriving DecidableEq, Repr

/-- The six axial unit directions, mirroring hex.Directions. -/
def Directions : List Axial :=
  [⟨1, 0⟩, ⟨1, -1⟩, ⟨0, -1⟩, ⟨-1, 0⟩, ⟨-1, 1⟩, ⟨0, 1⟩]

/-- Axial.Add. -/
def Axial.add (a b : Axial) : Axial := ⟨a.q + b.q, a.r + b.r⟩

/-- Axial.Mul. -/
def Axial.mul (a : Axial) (k : Int) : Axial := ⟨a.q * k, a.r * k⟩

/-- Axial.ToCube: x = q, z = r, y = -x-z. -/
def Axial.toCube (a : Axial) : Cube := ⟨a.q, -a.q - a.r, a.r⟩

/-- DistanceCube: component-wise absolute differences combined by the
source's if-chain (which computes their maximum). -/
def DistanceCube (a b : Cube) : Nat :=
  let dx := (a.x - b.x).natAbs
  let dy := (a.y - b.y).natAbs
  let dz := (a.z - b.z).natAbs
  if dx > dy ∧ dx > dz then dx else if dy > dz then dy else dz

/-- DistanceAxial. -/
def DistanceAxial (a b : Axial) : Nat := DistanceCube a.toCube b.toCube

/-- One side of the ring walk: appends the running cursor k times,
advancing it by direction d after each append; returns the produced
cells together with the final cursor (the inner loop of hex.Ring). -/
def ringWalk (cur d : Axial) : Nat → List Axial × Axial
  | 0 => ([], cur)
  | n + 1 =>
    let p := ringWalk (cur.add d) d n
    (cur :: p.1, p.2)

/-- The outer loop of hex.Ring: traverse the six sides in order,
threading the cursor through. -/
def ringSides (cur : Axial) (k : Nat) : List Axial → List Axial
  | [] => []
  | d :: rest =>
    let p := ringWalk cur d k
    p.1 ++ ringSides p.2 k rest

/-- hex.Ring: the cells at exact distance k from c, starting at
direction 4 and walking the six sides. -/
def Ring (c : Axial) (k : Nat) : List Axial :=
  if k = 0 then [c]
  else ringSides (c.add ((Directions.getD 4 ⟨0, 0⟩).mul (k : Int))) k Directions

/-- Integer range lo..hi inclusive, as produced by a Go for-loop. -/
def intRange (lo hi : Int) : List Int :=
  (List.range (hi + 1 - lo).toNat).map fun i : Nat => lo + (i : Int)

/-- Go helper min for int. -/
def minInt (a b : Int) : Int := if a < b then a else b

/-- Go helper max for int. -/
def maxInt (a b : Int) : Int := if a > b then a else b

/-- hex.Disk: all cells at distance at most r from c, enumerated by the
source's double loop over axial coordinates. -/
def Disk (c : Axial) (r : Int) : List Axial :=
  (intRange (-r) r).flatMap fun q =>
    (intRange (maxInt (-r) (-q - r)) (minInt r (-q + r))).map fun r2 =>
      c.add ⟨q, r2⟩

/-- The index scan of hex.Edge: indices i of the ring whose cell's
outward neighbor in the given direction has distance R+1 from c. -/
def edgeIdxs (c : Axial) (R : Nat) (side : Nat) (ring : List Axial) : List Nat :=
  (List.range ring.length).filter fun i =>
    DistanceAxial c ((ring.getD i ⟨0, 0⟩).add (Directions.getD side ⟨0, 0⟩)) == R + 1

/-- The smallest-gap start selection of hex.Edge (the branch taken when
the index scan found exactly R indices). -/
def minGapScan (idxs : List Nat) (L : Nat) : Nat :=
  let n := idxs.length
  (((List.range n).foldl
    (fun acc i =>
      let j := (i + 1) % n
      let gap := (idxs.getD j 0 + L - idxs.getD i 0) % L
      if gap < acc.1 then (gap, j) else acc)
    (2 ^ 31 - 1, 0)) : Nat × Nat).2

/-- hex.Edge: R cells of the ring at distance R attributed to the given
side; gathers boundary indices, and when their count is not R falls back
to the contiguous segment starting at index side*R of the ring. -/
def Edge (c : Axial) (R : Nat) (side : Nat) : List Axial :=
  if R = 0 then [c]
  else
    let ring := Ring c R
    let idxs := edgeIdxs c R side ring
    if idxs.length ≠ R then
      let start := (side * R) % ring.length
      (List.range R).map fun i => ring.getD ((start + i) % ring.length) ⟨0, 0⟩
    else
      let startIdx := minGapScan idxs ring.length
      (List.range R).map fun k =>
        ring.getD (idxs.getD ((startIdx + k) % idxs.length) 0) ⟨0, 0⟩

/-! ## Chunked game map (internal/gamemap) -/

/-- A single hex cell of the world (gamemap.Hex). -/
structure Hex where
  WorldPos : Axial
  Terrain : String
deriving DecidableEq, Repr

/-- A hex chunk (gamemap.HexChunk); the Hexes map keyed by local axial
position is modelled as an association list in generation order. -/
structure HexChunk where
  ChunkPos : Axial
  Hexes : List (Axial × Hex)
  Generated : Bool
  Radius : Int
deriving DecidableEq, Repr

/-- The local axial positions visited by the generation double loop
(q from -radius to radius, r from max(-radius, -q-radius) to
min(radius, -q+radius)); shared by generateHexes and generateChunks. -/
def chunkLocals (radius : Int) : List Axial :=
  (intRange (-radius) radius).flatMap fun q =>
    (intRange (maxInt (-radius) (-q - radius)) (minInt radius (-q + radius))).map
      fun r => (⟨q, r⟩ : Axial)

/-- HexChunk.generateHexes: fills every local position of the chunk's
hex disk with a plains hex whose world position is
ChunkPos*Radius + localPos, then marks the chunk generated. -/
def generateHexes (c : HexChunk) : HexChunk :=
  { c with
    Hexes := (chunkLocals c.Radius).map fun lp =>
      (lp, { WorldPos := ⟨c.ChunkPos.q * c.Radius + lp.q, c.ChunkPos.r * c.Radius + lp.r⟩
             Terrain := "plains" }),
    Generated := true }

/-- NewHexChunk: builds an empty chunk of the default radius 9 and
immediately generates its hexes. -/
def NewHexChunk (chunkPos : Axial) : HexChunk :=
  generateHexes { ChunkPos := chunkPos, Hexes := [], Generated := false, Radius := 9 }

/-- GameMap.generateChunks: one NewHexChunk per chunk-grid position in
the hex disk of the configured chunk radius. -/
def generateChunks (chunkRadius : Int) : List (Axial × HexChunk) :=
  (chunkLocals chunkRadius).map fun pos => (pos, NewHexChunk pos)

/-- gamemap.GameMap. -/
structure GameMap where
  Chunks : List (Axial × HexChunk)
  ChunkRadius : Int

/-- gamemap.New. -/
def GameMap.new (chunkRadius : Int) : GameMap :=
  { Chunks := generateChunks chunkRadius, ChunkRadius := chunkRadius }

/-- Whether a chunk holds a cell whose world position is w. -/
def containsWorld (c : HexChunk) (w : Axial) : Bool :=
  c.Hexes.any fun kv => kv.2.WorldPos == w

/-! ## Player model (pkg/models/player.go) -/

/-- models.Player; the two time.Time fields are modelled as Unix
integers. -/
structure Player where
  ID : String
  Username : String
  Email : String
  UserType : String
  Permissions : Int
  Activated : Int
  AuthMethod : String
  Connected : Bool
  ConnectedAt : Int
  SessionID : String
  EmpireID : String
deriving DecidableEq, Repr

/-! ## Credential validator (internal/server/auth.go) -/

/-- The JWT claims carried by a token (server.Claims); ExpiresAt is the
optional exp registered claim as a Unix time. -/
structure Claims where
  UserID : Int
  Email : String
  Username : String
  UserType : String
  AuthMethod : String
  Permissions : Int
  Activated : Int
  Issuer : String
  ExpiresAt : Option Int
deriving DecidableEq, Repr

/-- Outcome of jwt.ParseWithClaims with the cached ECDSA key: the
external library either rejects the token (bad signature, malformed, or
failing its built-in registered-claim checks) or yields its claims. -/
inductive TokenParse where
  | parseError (msg : String)
  | parsed (claims : Claims)
deriving DecidableEq, Repr

/-- Outcome of the revocation-store lookup redis.Exists: a transport
error, or the authoritative count of matching keys. -/
inductive RedisReply where
  | lookupError (msg : String)
  | found (count : Nat)
deriving DecidableEq, Repr

/-- The source's expiry test: claims.ExpiresAt != nil &&
claims.ExpiresAt.Before(now). -/
def expiredBefore (e : Option Int) (now : Int) : Bool :=
  match e with
  | none => false
  | some t => decide (t < now)

/-- The Player built from validated claims at the end of ValidateToken
(ID and EmpireID both the decimal form of user_id). -/
def playerFromClaims (c : Claims) : Player :=
  let userIDStr := toString c.UserID
  { ID := userIDStr, Username := c.Username, Email := c.Email,
    UserType := c.UserType, Permissions := c.Permissions,
    Activated := c.Activated, AuthMethod := c.AuthMethod,
    Connected := false, ConnectedAt := 0, SessionID := "",
    EmpireID := userIDStr }

/-- Result of ValidateToken together with the warnings it logged. -/
structure ValidateOutcome where
  result : Except String Player
  warnings : List String
deriving Repr

/-- JWTValidator.ValidateToken: parse (signature verification by the
library), then issuer, expiry, activation and ban checks, then the
revocation-store lookup; a lookup transport error logs a warning and
continues, an authoritative positive count fails. -/
def ValidateToken (issuerCfg : String) (now : Int) (bl : RedisReply)
    (tok : TokenParse) : ValidateOutcome :=
  match tok with
  | .parseError m => ⟨.error ("failed to parse token: " ++ m), []⟩
  | .parsed claims =>
    if claims.Issuer ≠ issuerCfg then ⟨.error "invalid issuer", []⟩
    else if expiredBefore claims.ExpiresAt now then ⟨.error "token expired", []⟩
    else if claims.Activated = 0 then ⟨.error "user not activated", []⟩
    else if claims.Activated = -1 then ⟨.error "user is banned", []⟩
    else
      match bl with
      | .lookupError m =>
        ⟨.ok (playerFromClaims claims),
         ["Warning: Failed to check blacklist: " ++ m]⟩
      | .found n =>
        if n > 0 then ⟨.error "token is blacklisted", []⟩
        else ⟨.ok (playerFromClaims claims), []⟩

/-- Server.handleWebSocket up to connection registration: reject when
the extracted token string is empty, reject when ValidateToken fails
(both before the transport upgrade), otherwise upgrade and register the
connection.  Returns the roster, the registered-connection list and
whether the upgrade completed. -/
def handleWebSocket (roster : List (String × Player)) (conns : List Nat)
    (connId : Nat) (tokenString : String) (issuerCfg : String) (now : Int)
    (bl : RedisReply) (tok : TokenParse) :
    List (String × Player) × List Nat × Bool :=
  if tokenString = "" then (roster, conns, false)
  else
    match (ValidateToken issuerCfg now bl tok).result with
    | .error _ => (roster, conns, false)
    | .ok _ => (roster, conns ++ [connId], true)

/-- The failure condition of claim C1, written from the spec's words:
bad signature / parse failure, issuer mismatch, expiry before the wall
clock, activation sentinel 0 or -1, or an authoritative positive
revocation answer. -/
def specAuthFailure (issuerCfg : String) (now : Int) (bl : RedisReply)
    (tok : TokenParse) : Bool :=
  match tok with
  | .parseError _ => true
  | .parsed c =>
    (c.Issuer != issuerCfg) || expiredBefore c.ExpiresAt now ||
    (c.Activated == 0) || (c.Activated == -1) ||
    (match bl with
     | .lookupError _ => false
     | .found n => decide (n > 0))

/-! ## Wire protocol (internal/network/protocol.go) -/

/-- The server-to-client messages used by the handlers under study. -/
inductive ServerMsg where
  | welcome (playerID username sessionID : String)
      (state : String) (playerCount maxPlayers : Int)
      (serverTick uptime : Int)
  | playerJoined (playerID username email : String)
  | playerLeft (playerID username : String)
  | chatBroadcast (playerID username message : String) (timestamp : Int)
  | pong (timestamp : Int)
  | errorMsg (code message : String)
deriving DecidableEq, Repr

/-! ## Session (internal/server session code) -/

/-- Go map insertion m[k] = v on an association list: overwrite the
entry holding the key, or append a fresh entry. -/
def mapInsert (k : String) (v : α) : List (String × α) → List (String × α)
  | [] => [(k, v)]
  | kv :: rest =>
    if k = kv.1 then (k, v) :: rest else kv :: mapInsert k v rest

/-- Go map deletion delete(m, k) on an association list. -/
def mapErase (k : String) : List (String × α) → List (String × α)
  | [] => []
  | kv :: rest => if k = kv.1 then mapErase k rest else kv :: mapErase k rest

/-- Go map membership test. -/
def containsKey (k : String) : List (String × α) → Bool
  | [] => false
  | kv :: rest => if k = kv.1 then true else containsKey k rest

/-- server.SessionStatus. -/
structure SessionStatus where
  State : String
  PlayerCount : Int
  MaxPlayers : Int
  ServerTick : Int
  Uptime : Int
deriving DecidableEq, Repr

/-- server.Session: roster and connection table keyed by player id
(connections modelled by numeric connection ids), plus the status. -/
structure Session where
  ID : String
  players : List (String × Player)
  connections : List (String × Nat)
  status : SessionStatus
deriving DecidableEq, Repr

/-- server.NewSession: empty roster, status state "waiting" with the
configured MaxPlayers and zero-valued count, tick and uptime. -/
def NewSession (id : String) (maxPlayers : Int) : Session :=
  { ID := id, players := [], connections := [],
    status := { State := "waiting", PlayerCount := 0,
                MaxPlayers := maxPlayers, ServerTick := 0, Uptime := 0 } }

/-- Session.AddPlayer: store the player and its connection under the
player id, refresh PlayerCount from the roster size, return nil error. -/
def Session.AddPlayer (s : Session) (p : Player) (connId : Nat) :
    Session × Option String :=
  let players := mapInsert p.ID p s.players
  ({ s with players := players,
            connections := mapInsert p.ID connId s.connections,
            status := { s.status with PlayerCount := (players.length : Int) } },
   none)

/-- Session.RemovePlayer: when the id is present, delete it from both
maps and refresh PlayerCount. -/
def Session.RemovePlayer (s : Session) (playerID : String) : Session :=
  if containsKey playerID s.players then
    let players := mapErase playerID s.players
    { s with players := players,
             connections := mapErase playerID s.connections,
             status := { s.status with PlayerCount := (players.length : Int) } }
  else s

/-- Session.BroadcastMessage: one send per connection in the table. -/
def Session.BroadcastMessage (s : Session) (msg : ServerMsg) :
    List (Nat × ServerMsg) :=
  s.connections.map fun kv => (kv.2, msg)

/-- Session.BroadcastExcept: one send per connection other than the
excluded one. -/
def Session.BroadcastExcept (s : Session) (exclude : Nat) (msg : ServerMsg) :
    List (Nat × ServerMsg) :=
  (s.connections.filter fun kv => kv.2 != exclude).map fun kv => (kv.2, msg)

/-! ## Connection layer (internal/server/connection.go) -/

/-- The per-connection outbound queue: NewConnection allocates a
buffered channel of capacity 256, modelled as a list bounded by
sendCap. -/
structure Connection where
  send : List ServerMsg
  sendCap : Nat
  authenticated : Bool
deriving DecidableEq, Repr

/-- server.NewConnection. -/
def NewConnection : Connection :=
  { send := [], sendCap := 256, authenticated := false }

/-- Connection.SendMessage: the non-blocking select — enqueue when the
channel buffer has room, otherwise drop the offered message and log;
the Bool reports whether the message was dropped. -/
def SendMessage (c : Connection) (m : ServerMsg) : Connection × Bool :=
  if c.send.length < c.sendCap then ({ c with send := c.send ++ [m] }, false)
  else (c, true)

/-- Outcome of json.Unmarshal of a chat payload. -/
inductive ChatParse where
  | failed
  | ok (message : String)
deriving DecidableEq, Repr

/-- Connection.handleChat: authentication guard, payload parse guard,
then an unconditional broadcast of the chat to every connection (the
source has no rate limiting — only a TODO comment). -/
def handleChat (authed : Bool) (pl : Option Player) (s : Session)
    (connId : Nat) (parse : ChatParse) (now : Int) : List (Nat × ServerMsg) :=
  match pl, authed with
  | none, _ =>
    [(connId, .errorMsg "not_authenticated" "Must be authenticated to chat")]
  | some _, false =>
    [(connId, .errorMsg "not_authenticated" "Must be authenticated to chat")]
  | some p, true =>
    match parse with
    | .failed => [(connId, .errorMsg "invalid_chat" "Invalid chat message")]
    | .ok msg => s.BroadcastMessage (.chatBroadcast p.ID p.Username msg now)

/-- Connection.handleJoin: guard, mark the player connected, add it to
the session, send welcome built from the post-add status, then
broadcast player_joined to every other connection. -/
def handleJoin (authed : Bool) (pl : Option Player) (connId : Nat)
    (s : Session) (now : Int) : Session × List (Nat × ServerMsg) :=
  match pl, authed with
  | none, _ =>
    (s, [(connId, .errorMsg "not_authenticated" "Connection not authenticated")])
  | some _, false =>
    (s, [(connId, .errorMsg "not_authenticated" "Connection not authenticated")])
  | some p, true =>
    let p2 := { p with Connected := true, ConnectedAt := now, SessionID := s.ID }
    match s.AddPlayer p2 connId with
    | (_, some _) =>
      (s, [(connId, .errorMsg "join_failed" "Failed to join session")])
    | (s2, none) =>
      let w := ServerMsg.welcome p2.ID p2.Username s.ID
        s2.status.State s2.status.PlayerCount s2.status.MaxPlayers
        s2.status.ServerTick s2.status.Uptime
      (s2, (connId, w) ::
        s2.BroadcastExcept connId (.playerJoined p2.ID p2.Username p2.Email))

/-! ## Derived predicates and concrete fixtures -/

/-- The roster/connection-table invariant maintained by the session:
duplicate-free key lists, identical key sets in both maps, and a player
count equal to the roster size. -/
def sessionInv (s : Session) : Prop :=
  (s.players.map Prod.fst).Nodup ∧
  (s.connections.map Prod.fst).Nodup ∧
  (∀ k, containsKey k s.players = containsKey k s.connections) ∧
  s.status.PlayerCount = (s.players.length : Int)

/-- A concrete player used by witness instantiations. -/
def samplePlayer : Player :=
  { ID := "123", Username := "alice", Email := "alice@example.com",
    UserType := "user", Permissions := 0, Activated := 1697123456789000000,
    AuthMethod := "password", Connected := false, ConnectedAt := 0,
    SessionID := "", EmpireID := "123" }

/-- Concrete claims used by witness instantiations. -/
def sampleClaims : Claims :=
  { UserID := 123, Email := "alice@example.com", Username := "alice",
    UserType := "user", AuthMethod := "password", Permissions := 0,
    Activated := 1697123456789000000, Issuer := "gologinserver",
    ExpiresAt := some 2000 }

/-- A concrete session with three joined players, used by witness
instantiations. -/
def sampleSession3 : Session :=
  { ID := "main",
    players :=
      [("1", { samplePlayer with ID := "1", Username := "alice" }),
       ("2", { samplePlayer with ID := "2", Username := "bob" }),
       ("3", { samplePlayer with ID := "3", Username := "carol" })],
    connections := [("1", 1), ("2", 2), ("3", 3)],
    status := { State := "waiting", PlayerCount := 3, MaxPlayers := 100,
                ServerTick := 0, Uptime := 0 } }

/-! ## Helper lemmas -/

theorem getD_mem_of_lt {α : Type} (l : List α) (i : Nat) (d : α)
    (h : i < l.length) : l.getD i d ∈ l := by
  induction l generalizing i with
  | nil => simp at h
  | cons x xs ih =>
    cases i with
    | zero => simp
    | succ j =>
      simp only [List.getD_cons_succ]
      exact List.mem_cons_of_mem _ (ih j (by simpa using h))

theorem ringWalk_snd (d : Axial) (n : Nat) : ∀ cur : Axial,
    (ringWalk cur d n).2 = cur.add (d.mul (n : Int)) := by
  induction n with
  | zero =>
    intro cur
    cases cur
    simp [ringWalk, Axial.add, Axial.mul]
  | succ m ih =>
    intro cur
    simp only [ringWalk, ih (cur.add d)]
    cases cur
    cases d
    simp only [Axial.add, Axial.mul, Axial.mk.injEq]
    push_cast
    constructor <;> ring

theorem ringWalk_length (d : Axial) (n : Nat) : ∀ cur : Axial,
    (ringWalk cur d n).1.length = n := by
  induction n with
  | zero => intro cur; simp [ringWalk]
  | succ m ih => intro cur; simp [ringWalk, ih]

theorem ringWalk_mem (d : Axial) (n : Nat) : ∀ (cur a : Axial),
    a ∈ (ringWalk cur d n).1 →
    ∃ t : Nat, t < n ∧ a.q = cur.q + d.q * t ∧ a.r = cur.r + d.r * t := by
  induction n with
  | zero => intro cur a h; simp [ringWalk] at h
  | succ m ih =>
    intro cur a h
    simp only [ringWalk, List.mem_cons] at h
    rcases h with h | h
    · exact ⟨0, by omega, by simp [h], by simp [h]⟩
    · obtain ⟨t, ht, hq, hr⟩ := ih (cur.add d) a h
      refine ⟨t + 1, by omega, ?_, ?_⟩
      · rw [hq]; simp [Axial.add]; ring
      · rw [hr]; simp [Axial.add]; ring

theorem mem_ring_dist (c : Axial) (k : Nat) (hk : k ≠ 0) (a : Axial)
    (ha : a ∈ Ring c k) : DistanceAxial c a = k := by
  unfold Ring at ha
  rw [if_neg hk] at ha
  simp only [Directions, ringSides, List.getD, List.get?, Option.getD,
    List.mem_append, List.mem_nil_iff, or_false] at ha
  rcases ha with ha | ha | ha | ha | ha | ha <;>
    obtain ⟨t, ht, hq, hr⟩ := ringWalk_mem _ _ _ _ ha <;>
    simp only [ringWalk_snd, Axial.add, Axial.mul] at hq hr <;>
    simp only [DistanceAxial, DistanceCube, Axial.toCube] <;>
    split_ifs <;> omega

theorem ring_length (c : Axial) (k : Nat) (hk : k ≠ 0) :
    (Ring c k).length = 6 * k := by
  unfold Ring
  rw [if_neg hk]
  simp only [Directions, ringSides, List.length_append, ringWalk_length,
    List.length_nil]
  omega

theorem mem_edgeIdxs_lt (c : Axial) (R side : Nat) (ring : List Axial)
    (j : Nat) (h : j ∈ edgeIdxs c R side ring) : j < ring.length := by
  simp only [edgeIdxs, List.mem_filter, List.mem_range] at h
  exact h.1

/-! ## C7: Edge enumeration -/

/-- C7 (counterexample): at center (0,0), R = 1, side 0, the cell
(1,-1) lies on the ring of radius 1 and its outward neighbor in
direction 0 lies at distance 2 (it leaves the disc), yet Edge does not
return it — so Edge's cells are not the cells whose outward neighbor in
direction s leaves the disc. -/
theorem edge_not_outward_boundary :
    DistanceAxial ⟨0, 0⟩ ⟨1, -1⟩ = 1 ∧
    DistanceAxial ⟨0, 0⟩ (Axial.add ⟨1, -1⟩ ⟨1, 0⟩) = 2 ∧
    ¬ (⟨1, -1⟩ : Axial) ∈ Edge ⟨0, 0⟩ 1 0 := by
  decide

/-- C7 (amended): for every center c, radius R ≥ 1 and side s ∈ 0..5,
Edge(c, R, s) returns exactly R cells, each lying on the ring of radius
R around c (at distance exactly R); the original claim's further
characterization of them as the cells whose outward neighbor in
direction s lies at distance R+1 is refuted by the counterexample. -/
theorem edge_length_and_on_ring (c : Axial) (R side : Nat)
    (hR : 1 ≤ R) (_hside : side < 6) :
    (Edge c R side).length = R ∧
    ∀ a ∈ Edge c R side, DistanceAxial c a = R := by
  have hR0 : R ≠ 0 := by omega
  have hL : (Ring c R).length = 6 * R := ring_length c R hR0
  simp only [Edge]
  rw [if_neg hR0]
  split_ifs with hlen
  · refine ⟨by simp, ?_⟩
    intro a ha
    simp only [List.mem_map, List.mem_range] at ha
    obtain ⟨i, hi, rfl⟩ := ha
    refine mem_ring_dist c R hR0 _ (getD_mem_of_lt _ _ _ ?_)
    exact Nat.mod_lt _ (by omega)
  · push_neg at hlen
    refine ⟨by simp, ?_⟩
    intro a ha
    simp only [List.mem_map, List.mem_range] at ha
    obtain ⟨i, hi, rfl⟩ := ha
    refine mem_ring_dist c R hR0 _ (getD_mem_of_lt _ _ _ ?_)
    refine mem_edgeIdxs_lt c R side _ _ (getD_mem_of_lt _ _ _ ?_)
    rw [hlen]
    exact Nat.mod_lt _ (by omega)

/-- C7 (witness): the amended theorem instantiated at center (0,0),
radius 2, side 1. -/
theorem edge_length_and_on_ring_witness :
    (Edge ⟨0, 0⟩ 2 1).length = 2 ∧
    ∀ a ∈ Edge ⟨0, 0⟩ 2 1, DistanceAxial ⟨0, 0⟩ a = 2 :=
  edge_length_and_on_ring ⟨0, 0⟩ 2 1 (by norm_num) (by norm_num)

/-! ## C8 and C3: chunk generation -/

theorem mem_intRange (x lo hi : Int) :
    x ∈ intRange lo hi ↔ lo ≤ x ∧ x ≤ hi := by
  unfold intRange
  constructor
  · intro hx
    obtain ⟨i, hi2, rfl⟩ := List.mem_map.mp hx
    have hlt : i < (hi + 1 - lo).toNat := List.mem_range.mp hi2
    omega
  · intro h
    exact List.mem_map.mpr
      ⟨(x - lo).toNat, List.mem_range.mpr (by omega), by omega⟩

theorem distanceAxial_zero_le (lq lr R : Int) :
    ((DistanceAxial ⟨0, 0⟩ ⟨lq, lr⟩ : Int) ≤ R) ↔
      (-R ≤ lq ∧ lq ≤ R ∧ -R ≤ lr ∧ lr ≤ R ∧ -R ≤ lq + lr ∧ lq + lr ≤ R) := by
  simp only [DistanceAxial, DistanceCube, Axial.toCube]
  split_ifs <;> omega

theorem mem_chunkLocals (R : Int) (lp : Axial) :
    lp ∈ chunkLocals R ↔ ((DistanceAxial ⟨0, 0⟩ lp : Int) ≤ R) := by
  obtain ⟨lq, lr⟩ := lp
  rw [distanceAxial_zero_le]
  simp only [chunkLocals, List.mem_flatMap, List.mem_map, mem_intRange,
    minInt, maxInt, Axial.mk.injEq]
  constructor
  · rintro ⟨q, hq, r2, hr2, rfl, rfl⟩
    split_ifs at hr2 <;> omega
  · rintro ⟨h1, h2, h3, h4, h5, h6⟩
    refine ⟨lq, ⟨by omega, by omega⟩, lr, ⟨?_, ?_⟩, rfl, rfl⟩ <;>
      split_ifs <;> omega

set_option maxRecDepth 8000 in
/-- C8: every chunk created by NewHexChunk is generated at creation,
has radius 9, and holds exactly 1+3R(R+1) = 271 cells; its local keys
are exactly the hex disk of radius 9 around the local origin. -/
theorem newHexChunk_fully_generated (pos : Axial) :
    (NewHexChunk pos).Generated = true ∧
    (NewHexChunk pos).Radius = 9 ∧
    (NewHexChunk pos).Hexes.length = 1 + 3 * 9 * (9 + 1) ∧
    (NewHexChunk pos).Hexes.length = 271 ∧
    ∀ lp : Axial, lp ∈ (NewHexChunk pos).Hexes.map Prod.fst ↔
      ((DistanceAxial ⟨0, 0⟩ lp : Int) ≤ 9) := by
  have hk : (NewHexChunk pos).Hexes.map Prod.fst = chunkLocals 9 := by
    simp only [NewHexChunk, generateHexes, List.map_map]
    rw [show (Prod.fst ∘ fun lp : Axial =>
      (lp, ({ WorldPos := ⟨pos.q * 9 + lp.q, pos.r * 9 + lp.r⟩,
              Terrain := "plains" } : Hex))) = id from rfl, List.map_id]
  have hlen : (chunkLocals 9).length = 271 := by decide
  have hlen2 : (NewHexChunk pos).Hexes.length = 271 := by
    have := congrArg List.length hk
    simpa using this.trans hlen
  exact ⟨rfl, rfl, by omega, hlen2, fun lp => by rw [hk, mem_chunkLocals]⟩

/-- C3 (code bug): with chunk radius 1, the distinct chunks at grid
coordinates (0,0) and (1,0) are both present in the generated map and
both contain a cell whose world position is (5,0): the world-position
transform ChunkPos*Radius + local assigns one world hex to two chunks,
so a world hex is not contained in at most one chunk. -/
theorem chunks_share_world_hex :
    (⟨0, 0⟩ : Axial) ≠ ⟨1, 0⟩ ∧
    ((⟨0, 0⟩ : Axial), NewHexChunk ⟨0, 0⟩) ∈ (GameMap.new 1).Chunks ∧
    ((⟨1, 0⟩ : Axial), NewHexChunk ⟨1, 0⟩) ∈ (GameMap.new 1).Chunks ∧
    containsWorld (NewHexChunk ⟨0, 0⟩) ⟨5, 0⟩ = true ∧
    containsWorld (NewHexChunk ⟨1, 0⟩) ⟨5, 0⟩ = true := by
  refine ⟨by decide, ?_, ?_, by decide, by decide⟩
  · exact List.mem_map_of_mem _ (by decide : (⟨0, 0⟩ : Axial) ∈ chunkLocals 1)
  · exact List.mem_map_of_mem _ (by decide : (⟨1, 0⟩ : Axial) ∈ chunkLocals 1)

/-! ## C1 and C2: credential validation -/

theorem validate_result_cases (issuerCfg : String) (now : Int)
    (bl : RedisReply) (tok : TokenParse) :
    (specAuthFailure issuerCfg now bl tok = true →
      ∃ m, (ValidateToken issuerCfg now bl tok).result = Except.error m) ∧
    (specAuthFailure issuerCfg now bl tok = false →
      ∃ c, tok = TokenParse.parsed c ∧
        (ValidateToken issuerCfg now bl tok).result =
          Except.ok (playerFromClaims c)) := by
  cases tok with
  | parseError m =>
    exact ⟨fun _ => ⟨_, rfl⟩, fun h => by simp [specAuthFailure] at h⟩
  | parsed c =>
    cases bl with
    | lookupError m =>
      simp only [ValidateToken, specAuthFailure]
      split_ifs with h1 h2 h3 h4 <;> simp_all
    | found n =>
      simp only [ValidateToken, specAuthFailure]
      split_ifs with h1 h2 h3 h4 h5 <;> simp_all

theorem handleWebSocket_refused (roster : List (String × Player))
    (conns : List Nat) (connId : Nat) (tokenString : String)
    (issuerCfg : String) (now : Int) (bl : RedisReply) (tok : TokenParse)
    (h : ∃ m, (ValidateToken issuerCfg now bl tok).result = Except.error m) :
    handleWebSocket roster conns connId tokenString issuerCfg now bl tok =
      (roster, conns, false) := by
  obtain ⟨m, hm⟩ := h
  by_cases hts : tokenString = ""
  · simp [handleWebSocket, hts]
  · simp [handleWebSocket, hts, hm]

/-- C1: whenever one of the spec's failure conditions holds (parse or
signature failure, wrong issuer, expiry before the wall clock,
activation sentinel 0 or -1, or an authoritative present answer from
the revocation store), ValidateToken returns an error and
handleWebSocket refuses the upgrade, registering no connection and
leaving the session roster unchanged; when none of them holds,
ValidateToken returns the Player built from the token's subject
claims. -/
theorem validateToken_gates_upgrade (issuerCfg : String) (now : Int)
    (bl : RedisReply) (tok : TokenParse) (roster : List (String × Player))
    (conns : List Nat) (connId : Nat) (tokenString : String) :
    (specAuthFailure issuerCfg now bl tok = true →
      (∃ m, (ValidateToken issuerCfg now bl tok).result = Except.error m) ∧
      handleWebSocket roster conns connId tokenString issuerCfg now bl tok =
        (roster, conns, false)) ∧
    (specAuthFailure issuerCfg now bl tok = false →
      ∃ c, tok = TokenParse.parsed c ∧
        (ValidateToken issuerCfg now bl tok).result =
          Except.ok (playerFromClaims c)) := by
  refine ⟨fun hf => ?_, (validate_result_cases issuerCfg now bl tok).2⟩
  have herr := (validate_result_cases issuerCfg now bl tok).1 hf
  exact ⟨herr, handleWebSocket_refused _ _ _ _ _ _ _ _ herr⟩

/-- C1 (witness): a banned token (activated = -1) is rejected and the
upgrade refused with the roster unchanged. -/
theorem validateToken_gates_upgrade_witness :
    (∃ m, (ValidateToken "gologinserver" 1000 (.found 0)
        (.parsed { sampleClaims with Activated := -1 })).result =
      Except.error m) ∧
    handleWebSocket [] [] 7 "tok" "gologinserver" 1000 (.found 0)
        (.parsed { sampleClaims with Activated := -1 }) = ([], [], false) :=
  (validateToken_gates_upgrade "gologinserver" 1000 (.found 0)
    (.parsed { sampleClaims with Activated := -1 }) [] [] 7 "tok").1
    (by decide)

/-- C2: for a token passing the signature, issuer, expiry and
activation checks, a revocation-store transport error admits the
subject with a logged warning (fail-open with warning), while an
authoritative present answer fails validation (fail-closed). -/
theorem blacklist_fail_open_warn_fail_closed (issuerCfg : String)
    (now : Int) (c : Claims) (h1 : c.Issuer = issuerCfg)
    (h2 : expiredBefore c.ExpiresAt now = false)
    (h3 : c.Activated ≠ 0) (h4 : c.Activated ≠ -1) :
    (∀ m, (ValidateToken issuerCfg now (.lookupError m) (.parsed c)).result =
        Except.ok (playerFromClaims c) ∧
      (ValidateToken issuerCfg now (.lookupError m) (.parsed c)).warnings =
        ["Warning: Failed to check blacklist: " ++ m]) ∧
    (∀ n, 0 < n →
      (ValidateToken issuerCfg now (.found n) (.parsed c)).result =
        Except.error "token is blacklisted") := by
  constructor
  · intro m
    simp [ValidateToken, h1, h2, h3, h4]
  · intro n hn
    simp [ValidateToken, h1, h2, h3, h4, hn]

/-- C2 (witness): the policy instantiated at concrete valid claims. -/
theorem blacklist_policy_witness :
    (∀ m, (ValidateToken "gologinserver" 1000 (.lookupError m)
        (.parsed sampleClaims)).result =
        Except.ok (playerFromClaims sampleClaims) ∧
      (ValidateToken "gologinserver" 1000 (.lookupError m)
        (.parsed sampleClaims)).warnings =
        ["Warning: Failed to check blacklist: " ++ m]) ∧
    (∀ n, 0 < n →
      (ValidateToken "gologinserver" 1000 (.found n)
        (.parsed sampleClaims)).result =
        Except.error "token is blacklisted") :=
  blacklist_fail_open_warn_fail_closed "gologinserver" 1000 sampleClaims
    (by decide) (by decide) (by decide) (by decide)

/-! ## Association-list lemmas for the session maps -/

theorem containsKey_iff_mem_keys {α : Type} (k : String)
    (m : List (String × α)) :
    containsKey k m = true ↔ k ∈ m.map Prod.fst := by
  induction m with
  | nil => simp [containsKey]
  | cons kv rest ih =>
    simp only [containsKey, List.map_cons, List.mem_cons]
    split_ifs with h
    · simp [h]
    · simp [h, ih]

theorem mem_keys_mapInsert {α : Type} (a k : String) (v : α)
    (m : List (String × α)) :
    a ∈ (mapInsert k v m).map Prod.fst ↔ a = k ∨ a ∈ m.map Prod.fst := by
  induction m with
  | nil => simp [mapInsert]
  | cons kv rest ih =>
    simp only [mapInsert]
    split_ifs with h
    · subst h; simp
    · simp only [List.map_cons, List.mem_cons, ih]; tauto

theorem nodup_keys_mapInsert {α : Type} (k : String) (v : α)
    (m : List (String × α)) (h : (m.map Prod.fst).Nodup) :
    ((mapInsert k v m).map Prod.fst).Nodup := by
  induction m with
  | nil => simp [mapInsert]
  | cons kv rest ih =>
    simp only [List.map_cons, List.nodup_cons] at h
    simp only [mapInsert]
    split_ifs with hk
    · subst hk; simp only [List.map_cons, List.nodup_cons]; exact h
    · simp only [List.map_cons, List.nodup_cons, mem_keys_mapInsert]
      refine ⟨?_, ih h.2⟩
      rintro (h2 | h2)
      · exact hk h2.symm
      · exact h.1 h2

theorem mem_keys_mapErase {α : Type} (a k : String)
    (m : List (String × α)) :
    a ∈ (mapErase k m).map Prod.fst ↔ a ≠ k ∧ a ∈ m.map Prod.fst := by
  induction m with
  | nil => simp [mapErase]
  | cons kv rest ih =>
    simp only [mapErase]
    split_ifs with h
    · subst h
      simp only [List.map_cons, List.mem_cons, ih]
      tauto
    · simp only [List.map_cons, List.mem_cons, ih]
      constructor
      · rintro (h2 | h2)
        · subst h2; exact ⟨fun hc => h hc.symm, Or.inl rfl⟩
        · exact ⟨h2.1, Or.inr h2.2⟩
      · rintro ⟨hne, h2 | h2⟩
        · exact Or.inl h2
        · exact Or.inr ⟨hne, h2⟩

theorem keys_mapErase_sublist {α : Type} (k : String)
    (m : List (String × α)) :
    ((mapErase k m).map Prod.fst).Sublist (m.map Prod.fst) := by
  induction m with
  | nil => simp [mapErase]
  | cons kv rest ih =>
    simp only [mapErase]
    split_ifs with h
    · exact ih.trans (List.sublist_cons_self _ _)
    · simpa using ih.cons₂ kv.1

theorem containsKey_mapInsert {α : Type} (a k : String) (v : α)
    (m : List (String × α)) :
    containsKey a (mapInsert k v m) = (a == k || containsKey a m) := by
  induction m with
  | nil =>
    simp only [mapInsert, containsKey]
    split_ifs with h <;> simp [h]
  | cons kv rest ih =>
    simp only [mapInsert]
    split_ifs with h
    · subst h
      simp only [containsKey]
      split_ifs with h2 <;> simp [h2]
    · simp only [containsKey, ih]
      split_ifs with h2 <;> simp [h2]

theorem containsKey_mapErase {α : Type} (a k : String)
    (m : List (String × α)) :
    containsKey a (mapErase k m) = (!(a == k) && containsKey a m) := by
  induction m with
  | nil => simp [mapErase, containsKey]
  | cons kv rest ih =>
    simp only [mapErase]
    split_ifs with h
    · subst h
      rw [ih]
      simp only [containsKey]
      split_ifs with h2
      · subst h2; simp
      · simp
    · simp only [containsKey, ih]
      split_ifs with h2
      · subst h2
        have hak : (kv.1 == k) = false := by
          simp only [beq_eq_false_iff_ne, ne_eq]
          exact fun hc => h hc.symm
        simp [hak]
      · simp

/-! ## C9 and C10: session roster operations -/

/-- C9: Session.AddPlayer returns nil error and admits the player
unconditionally — in particular admission still succeeds when the
roster size already reaches status.MaxPlayers, since no admission path
compares the two. -/
theorem addPlayer_unconditional (s : Session) (p : Player) (connId : Nat) :
    (s.AddPlayer p connId).2 = none ∧
    containsKey p.ID (s.AddPlayer p connId).1.players = true ∧
    ((s.players.length : Int) ≥ s.status.MaxPlayers →
      (s.AddPlayer p connId).2 = none ∧
      containsKey p.ID (s.AddPlayer p connId).1.players = true) := by
  have hmem : containsKey p.ID (s.AddPlayer p connId).1.players = true := by
    simp [Session.AddPlayer, containsKey_mapInsert]
  exact ⟨rfl, hmem, fun _ => ⟨rfl, hmem⟩⟩

/-- C9 (witness): adding to a session whose roster size (0) already
equals MaxPlayers (0) still succeeds and stores the player. -/
theorem addPlayer_unconditional_witness :
    ((NewSession "main" 0).AddPlayer samplePlayer 7).2 = none ∧
    containsKey samplePlayer.ID
      ((NewSession "main" 0).AddPlayer samplePlayer 7).1.players = true :=
  (addPlayer_unconditional (NewSession "main" 0) samplePlayer 7).2.2
    (by decide)

/-- C10: the invariant that the players and connections maps hold the
same key set without duplicates and that PlayerCount equals the roster
size holds for a fresh session and is preserved by every AddPlayer
(including overwriting a present id) and every RemovePlayer. -/
theorem session_maps_in_sync (s : Session) (h : sessionInv s) (p : Player)
    (connId : Nat) (pid : String) (id : String) (maxP : Int) :
    sessionInv (NewSession id maxP) ∧
    sessionInv (s.AddPlayer p connId).1 ∧
    sessionInv (s.RemovePlayer pid) := by
  obtain ⟨hn1, hn2, hkeys, hcount⟩ := h
  refine ⟨⟨by simp [NewSession], by simp [NewSession], fun k => rfl, rfl⟩, ?_, ?_⟩
  · refine ⟨nodup_keys_mapInsert _ _ _ hn1, nodup_keys_mapInsert _ _ _ hn2,
      fun k => ?_, rfl⟩
    show containsKey k (mapInsert p.ID p s.players) =
      containsKey k (mapInsert p.ID connId s.connections)
    rw [containsKey_mapInsert, containsKey_mapInsert, hkeys k]
  · by_cases hc : containsKey pid s.players = true
    · simp only [Session.RemovePlayer, if_pos hc]
      refine ⟨hn1.sublist (keys_mapErase_sublist pid s.players),
        hn2.sublist (keys_mapErase_sublist pid s.connections),
        fun k => ?_, rfl⟩
      rw [containsKey_mapErase, containsKey_mapErase, hkeys k]
    · simp only [Session.RemovePlayer, if_neg hc]
      exact ⟨hn1, hn2, hkeys, hcount⟩

/-- C10 (witness): the invariant holds after adding a player to, and
removing one from, a concrete three-player session. -/
theorem session_maps_in_sync_witness :
    sessionInv (NewSession "w" 100) ∧
    sessionInv (sampleSession3.AddPlayer samplePlayer 7).1 ∧
    sessionInv (sampleSession3.RemovePlayer "2") :=
  session_maps_in_sync sampleSession3
    ⟨by decide, by decide, fun k => rfl, by decide⟩ samplePlayer 7 "2" "w" 100

/-! ## C5: join handling -/

set_option maxRecDepth 4000 in
/-- C5: on an authenticated well-formed join, handleJoin places the
player in the roster, sets the status player count to the roster size,
first replies to the joiner with a welcome carrying the player id,
username, session id and the post-add status, and then broadcasts
player_joined to every other connection and never to the joiner; on a
fresh session the welcome reports player_count 1, state "waiting",
server_tick 0 and uptime ≥ 0, and nobody else receives a broadcast. -/
theorem handleJoin_welcome_then_broadcast (p : Player) (connId : Nat)
    (s : Session) (now : Int) :
    containsKey p.ID (handleJoin true (some p) connId s now).1.players = true ∧
    (handleJoin true (some p) connId s now).1.status.PlayerCount =
      ((handleJoin true (some p) connId s now).1.players.length : Int) ∧
    (handleJoin true (some p) connId s now).2 =
      (connId, ServerMsg.welcome p.ID p.Username s.ID
        (handleJoin true (some p) connId s now).1.status.State
        (handleJoin true (some p) connId s now).1.status.PlayerCount
        (handleJoin true (some p) connId s now).1.status.MaxPlayers
        (handleJoin true (some p) connId s now).1.status.ServerTick
        (handleJoin true (some p) connId s now).1.status.Uptime) ::
      (handleJoin true (some p) connId s now).1.BroadcastExcept connId
        (.playerJoined p.ID p.Username p.Email) ∧
    (∀ e ∈ (handleJoin true (some p) connId s now).1.BroadcastExcept connId
        (.playerJoined p.ID p.Username p.Email),
      e.1 ≠ connId ∧ e.2 = ServerMsg.playerJoined p.ID p.Username p.Email) ∧
    (s = NewSession s.ID s.status.MaxPlayers →
      (handleJoin true (some p) connId s now).1.status.PlayerCount = 1 ∧
      (handleJoin true (some p) connId s now).1.status.State = "waiting" ∧
      (handleJoin true (some p) connId s now).1.status.ServerTick = 0 ∧
      0 ≤ (handleJoin true (some p) connId s now).1.status.Uptime ∧
      (handleJoin true (some p) connId s now).1.BroadcastExcept connId
        (.playerJoined p.ID p.Username p.Email) = []) := by
  refine ⟨?_, rfl, rfl, ?_, ?_⟩
  · show containsKey p.ID (mapInsert p.ID _ s.players) = true
    rw [containsKey_mapInsert]
    simp
  · intro e he
    simp only [Session.BroadcastExcept, List.mem_map, List.mem_filter] at he
    obtain ⟨kv, ⟨_, hne⟩, rfl⟩ := he
    exact ⟨by simpa using hne, rfl⟩
  · intro hs
    rw [hs]
    refine ⟨rfl, rfl, rfl, le_refl 0, ?_⟩
    simp [handleJoin, Session.AddPlayer, Session.BroadcastExcept, NewSession,
      mapInsert]

/-- C5 (witness): the join conclusions instantiated for a concrete
player joining a fresh session. -/
theorem handleJoin_welcome_witness :
    containsKey samplePlayer.ID
      (handleJoin true (some samplePlayer) 7 (NewSession "main" 100)
        1000).1.players = true ∧
    (handleJoin true (some samplePlayer) 7 (NewSession "main" 100)
        1000).1.status.PlayerCount = 1 :=
  ⟨(handleJoin_welcome_then_broadcast samplePlayer 7 (NewSession "main" 100)
      1000).1,
   ((handleJoin_welcome_then_broadcast samplePlayer 7 (NewSession "main" 100)
      1000).2.2.2.2 rfl).1⟩

/-! ## C4: chat rate limiting (absent in the code) -/

/-- C4 (code evaluation): handleChat from an authenticated player with
a parsed payload always broadcasts the chat to every connection in the
session and never produces an error with code "rate_limited" — the
source tracks no per-player chat counts at all, so the 11th chat inside
60 seconds is broadcast like any other. -/
theorem chat_never_rate_limited (s : Session) (connId : Nat) (p : Player)
    (msg : String) (now : Int) :
    handleChat true (some p) s connId (.ok msg) now =
      s.BroadcastMessage (.chatBroadcast p.ID p.Username msg now) ∧
    ∀ e ∈ handleChat true (some p) s connId (.ok msg) now,
      ∀ emsg, e.2 ≠ ServerMsg.errorMsg "rate_limited" emsg := by
  refine ⟨rfl, ?_⟩
  intro e he emsg
  simp only [handleChat, Session.BroadcastMessage, List.mem_map] at he
  obtain ⟨kv, _, rfl⟩ := he
  simp

/-- C4 (witness): in the three-player session, a chat from player 2 is
delivered to all three connections and no rate_limited error exists. -/
theorem chat_never_rate_limited_witness :
    handleChat true (some { samplePlayer with ID := "2", Username := "bob" })
      sampleSession3 2 (.ok "hi") 1697123500 =
      sampleSession3.BroadcastMessage
        (.chatBroadcast "2" "bob" "hi" 1697123500) :=
  (chat_never_rate_limited sampleSession3 2
    { samplePlayer with ID := "2", Username := "bob" } "hi" 1697123500).1

/-! ## C6: bounded outbound queue -/

/-- C6: a new connection's outbound queue has capacity 256; SendMessage
appends the message when the queue is below capacity and, when the
queue is full, drops the newly offered message leaving the queue
unchanged (returning immediately rather than blocking). -/
theorem sendMessage_bounded_queue (c : Connection) (m : ServerMsg) :
    NewConnection.sendCap = 256 ∧
    (c.send.length < c.sendCap →
      SendMessage c m = ({ c with send := c.send ++ [m] }, false)) ∧
    (c.send.length = c.sendCap → SendMessage c m = (c, true)) := by
  refine ⟨rfl, fun h => ?_, fun h => ?_⟩
  · simp [SendMessage, h]
  · simp [SendMessage, h]

/-- C6 (witness): enqueueing into an empty new connection appends; a
queue holding 256 messages drops the new message unchanged. -/
theorem sendMessage_bounded_queue_witness :
    SendMessage NewConnection (.pong 0) =
      ({ NewConnection with send := NewConnection.send ++ [.pong 0] }, false) ∧
    SendMessage { NewConnection with send := List.replicate 256 (.pong 0) }
        (.pong 1) =
      ({ NewConnection with send := List.replicate 256 (.pong 0) }, true) :=
  ⟨(sendMessage_bounded_queue NewConnection (.pong 0)).2.1 (by decide),
   (sendMessage_bounded_queue
      { NewConnection with send := List.replicate 256 (.pong 0) }
      (.pong 1)).2.2
      (by show (List.replicate 256 (ServerMsg.pong 0)).length = 256
          rw [List.length_replicate])⟩

end Mmorts
